import Mathlib

/-!
Shallow embedding of the clock-face geometry engine of
`src/components/RetroClock.tsx`: the per-tick computation that turns a
wall-clock time plus a configuration record into hand angles and the
twelve-segment colored-ring arcs.

JavaScript numbers are modelled by exact rationals (`ℚ`); `Math.PI` is
embedded as the exact rational value of the IEEE-754 double constant.
The SVG path strings produced by `createArc` contain, beyond the start
and end angle, the radius and the large-arc flag, only trigonometric
images of those angles, so the arc model keeps the angles, radius and
flag and omits the cosine/sine endpoint coordinates.
-/

namespace RetroClock

/-- A wall-clock sample: `time.getHours()/getMinutes()/getSeconds()/getMilliseconds()`. -/
structure TimePoint where
  hours : ℕ
  minutes : ℕ
  seconds : ℕ
  milliseconds : ℕ
deriving DecidableEq, Repr

/-- The `RetroClockProps` configuration record, with the component's default values. -/
structure ClockConfig where
  size : ℚ := 400
  isSmooth : Bool := false
  fillSegmentsFluently : Bool := true
  useUniformColor : Bool := false
  forceWhiteSegments : Bool := false
  showBackgroundSegments : Bool := false
  fullRingMode : Bool := false
  alternatingMode : Bool := false
  arcThickness : ℚ := 15
  markerWidth : ℚ := 24
  hourHandWidth : ℚ := 8
  hourHandLength : ℚ := 100
  minuteHandWidth : ℚ := 8
  minuteHandLength : ℚ := 160
  showSecondHand : Bool := false
  secondHandWidth : ℚ := 4
  secondHandLength : ℚ := 170
  showCenterCap : Bool := false
deriving DecidableEq, Repr

/-- `BASE_CONFIG.markerRadius`. -/
def markerRadius : ℚ := 180

/-- `BASE_CONFIG.arcRadius`. -/
def arcRadius : ℚ := 180

/-- `BASE_CONFIG.markerHeight`. -/
def markerHeight : ℚ := 35

/-- `RAINBOW_COLORS`: the default per-segment color cycle. -/
def RAINBOW_COLORS : List String :=
  ["#FDE047", "#BEF264", "#4ADE80", "#10B981", "#06B6D4", "#3B82F6",
   "#6366F1", "#A855F7", "#D946EF", "#F43F5E", "#F97316", "#FBBF24"]

/-- `UNIFORM_COLORS`: the uniform color cycle indexed by 5-second bucket. -/
def UNIFORM_COLORS : List String :=
  ["#FED30A", "#90E675", "#5ABAFE", "#2818DE", "#4B2BF5", "#6940FD",
   "#A42BFD", "#FF2C61", "#E1462F", "#FD9755", "#FEB13A", "#FED30A"]

/-- The exact rational value of the IEEE-754 double constant `Math.PI`
(`884279719003555 / 2^48`). -/
def mathPI : ℚ := 884279719003555 / 281474976710656

/-- `rawSeconds = time.getSeconds() + time.getMilliseconds() / 1000`. -/
def rawSeconds (tp : TimePoint) : ℚ :=
  (tp.seconds : ℚ) + (tp.milliseconds : ℚ) / 1000

/-- `discreteSeconds = time.getSeconds()`. -/
def discreteSeconds (tp : TimePoint) : ℕ := tp.seconds

/-- `secondsForArcs = isSmooth ? rawSeconds : discreteSeconds` — the time value
driving the ring-segment state machine. -/
def secondsForArcs (cfg : ClockConfig) (tp : TimePoint) : ℚ :=
  if cfg.isSmooth then rawSeconds tp else (discreteSeconds tp : ℚ)

/-- `currentSegmentIndex = Math.min(Math.floor(rawSeconds / 5), 11)`. -/
def currentSegmentIndex (tp : TimePoint) : ℤ :=
  min ⌊rawSeconds tp / 5⌋ 11

/-- `currentUniformColor = UNIFORM_COLORS[currentSegmentIndex]`. -/
def currentUniformColor (tp : TimePoint) : String :=
  UNIFORM_COLORS.getD (currentSegmentIndex tp).toNat ""

/-- `isBuildUpPhase = !alternatingMode || (minutes % 2 === 0)`. -/
def isBuildUpPhase (cfg : ClockConfig) (tp : TimePoint) : Bool :=
  !cfg.alternatingMode || (tp.minutes % 2 == 0)

/-- `minuteAngle = minutes * 6 + rawSeconds * 0.1`. -/
def minuteAngle (tp : TimePoint) : ℚ :=
  (tp.minutes : ℚ) * 6 + rawSeconds tp * (1 / 10)

/-- `hourAngle = (hours % 12) * 30 + minutes * 0.5`. -/
def hourAngle (tp : TimePoint) : ℚ :=
  ((tp.hours % 12 : ℕ) : ℚ) * 30 + (tp.minutes : ℚ) * (1 / 2)

/-- `displaySecondAngle = isSmooth ? rawSeconds * 6 : discreteSeconds * 6`. -/
def displaySecondAngle (cfg : ClockConfig) (tp : TimePoint) : ℚ :=
  if cfg.isSmooth then rawSeconds tp * 6 else (discreteSeconds tp : ℚ) * 6

/-- `markerCoverageDegrees = (markerWidth / (2 * Math.PI * BASE_CONFIG.arcRadius)) * 360`. -/
def markerCoverageDegrees (markerWidth : ℚ) : ℚ :=
  markerWidth / (2 * mathPI * arcRadius) * 360

/-- `gapAngle = (markerCoverageDegrees / 2) + 1.5`. -/
def gapAngle (markerWidth : ℚ) : ℚ :=
  markerCoverageDegrees markerWidth / 2 + 3 / 2

/-- The arc description produced by `createArc`: radius, the two angles and the
large-arc flag (`endAngle - startAngle <= 180 ? "0" : "1"`); the remaining path
data are trigonometric images of these. -/
structure ArcPath where
  radius : ℚ
  startAngle : ℚ
  endAngle : ℚ
  largeArc : Bool
deriving DecidableEq, Repr

/-- `createArc(startAngle, endAngle, radius)`: returns the empty result
(`""`, modelled as `none`) when `endAngle <= startAngle`. -/
def createArc (startAngle endAngle radius : ℚ) : Option ArcPath :=
  if endAngle ≤ startAngle then none
  else some ⟨radius, startAngle, endAngle, !(endAngle - startAngle ≤ 180 : Bool)⟩

/-- One rendered ring-segment arc: index, render span and stroke color. -/
structure SegmentArc where
  index : ℕ
  renderStart : ℚ
  renderEnd : ℚ
  color : String
deriving DecidableEq, Repr

/-- `segmentStartSeconds = index * 5`: the lower bound of segment `i`'s bucket. -/
def segmentStartSeconds (i : ℕ) : ℚ := (i : ℚ) * 5

/-- `segmentEndSeconds = (index + 1) * 5`: the upper bound of segment `i`'s bucket. -/
def segmentEndSeconds (i : ℕ) : ℚ := ((i : ℚ) + 1) * 5

/-- `baseStartAngle = index * 30 + gapAngle`. -/
def baseStartAngle (cfg : ClockConfig) (i : ℕ) : ℚ :=
  (i : ℚ) * 30 + gapAngle cfg.markerWidth

/-- `maxEndAngle = (index + 1) * 30 - gapAngle`. -/
def maxEndAngle (cfg : ClockConfig) (i : ℕ) : ℚ :=
  ((i : ℚ) + 1) * 30 - gapAngle cfg.markerWidth

/-- `fullSpan = maxEndAngle - baseStartAngle`. -/
def fullSpan (cfg : ClockConfig) (i : ℕ) : ℚ :=
  maxEndAngle cfg i - baseStartAngle cfg i

/-- The per-segment render-span computation of the active-segments loop
(lines 185–242 of `RetroClock.tsx`), before the `renderEnd <= renderStart`
safety check: `none` models the `return null` branches. -/
def segmentSpan (cfg : ClockConfig) (buildUp : Bool) (t : ℚ) (i : ℕ) :
    Option (ℚ × ℚ) :=
  if cfg.fullRingMode then
    some (baseStartAngle cfg i, maxEndAngle cfg i)
  else if buildUp then
    if segmentEndSeconds i ≤ t then
      some (baseStartAngle cfg i, maxEndAngle cfg i)
    else if segmentStartSeconds i ≤ t then
      if cfg.fillSegmentsFluently then
        some (baseStartAngle cfg i,
          baseStartAngle cfg i + fullSpan cfg i * ((t - segmentStartSeconds i) / 5))
      else
        some (baseStartAngle cfg i, maxEndAngle cfg i)
    else
      none
  else
    if segmentEndSeconds i ≤ t then
      none
    else if segmentStartSeconds i ≤ t then
      if cfg.fillSegmentsFluently then
        some (baseStartAngle cfg i + fullSpan cfg i * ((t - segmentStartSeconds i) / 5),
          maxEndAngle cfg i)
      else
        some (baseStartAngle cfg i, maxEndAngle cfg i)
    else
      some (baseStartAngle cfg i, maxEndAngle cfg i)

/-- Color resolution for an active segment (`finalColor`): forced white, then
uniform bucket color, then the rainbow palette by index. -/
def segColor (cfg : ClockConfig) (tp : TimePoint) (i : ℕ) : String :=
  if cfg.forceWhiteSegments then "#FFFFFF"
  else if cfg.useUniformColor then currentUniformColor tp
  else RAINBOW_COLORS.getD i ""

/-- One active segment with explicit build phase and time: the render-span
computation followed by the `renderEnd <= renderStart` safety check
(line 245) and color resolution. -/
def renderSegment (cfg : ClockConfig) (tp : TimePoint) (buildUp : Bool)
    (t : ℚ) (i : ℕ) : Option SegmentArc :=
  match segmentSpan cfg buildUp t i with
  | none => none
  | some (s, e) =>
    if e ≤ s then none else some ⟨i, s, e, segColor cfg tp i⟩

/-- One active segment of the face, with build phase and time derived from
the inputs exactly as in the component body. -/
def computeSegment (cfg : ClockConfig) (tp : TimePoint) (i : ℕ) :
    Option SegmentArc :=
  renderSegment cfg tp (isBuildUpPhase cfg tp) (secondsForArcs cfg tp) i

/-- The list of rendered active segments (the `RAINBOW_COLORS.map` loop with
the `null` entries dropped). -/
def activeSegments (cfg : ClockConfig) (tp : TimePoint) : List SegmentArc :=
  (List.range 12).filterMap (computeSegment cfg tp)

/-- The optional background-track arcs: when `showBackgroundSegments`, twelve
arcs at the full inset span `[i*30+gap, (i+1)*30-gap]` with stroke `#333333`;
`tp` is taken as an argument (as the surrounding render function does) but the
emitted arcs never read it. -/
def backgroundArcs (cfg : ClockConfig) (_tp : TimePoint) : List SegmentArc :=
  if cfg.showBackgroundSegments then
    (List.range 12).map (fun i =>
      ⟨i, baseStartAngle cfg i, maxEndAngle cfg i, "#333333"⟩)
  else []

/-- `tailLength = 30`: fixed counterweight length of every hand. -/
def tailLength : ℚ := 30

/-- The face model: background track, active ring segments and hand angles. -/
structure FaceModel where
  background : List SegmentArc
  segments : List SegmentArc
  hour : ℚ
  minute : ℚ
  second : ℚ
deriving DecidableEq, Repr

/-- The whole per-tick face computation. -/
def computeFace (cfg : ClockConfig) (tp : TimePoint) : FaceModel :=
  ⟨backgroundArcs cfg tp, activeSegments cfg tp,
    hourAngle tp, minuteAngle tp, displaySecondAngle cfg tp⟩

/-! ### Helper lemmas -/

lemma rawSeconds_nonneg (tp : TimePoint) : 0 ≤ rawSeconds tp := by
  unfold rawSeconds
  positivity

lemma rawSeconds_lt_60 (tp : TimePoint) (hs : tp.seconds < 60)
    (hms : tp.milliseconds < 1000) : rawSeconds tp < 60 := by
  unfold rawSeconds
  have h1 : (tp.seconds : ℚ) ≤ 59 := by exact_mod_cast Nat.lt_succ_iff.mp hs
  have h2 : (tp.milliseconds : ℚ) < 1000 := by exact_mod_cast hms
  have h3 : (tp.milliseconds : ℚ) / 1000 < 1 := by linarith
  linarith

lemma floor_rawSeconds (tp : TimePoint) (hms : tp.milliseconds < 1000) :
    ⌊rawSeconds tp⌋ = (tp.seconds : ℤ) := by
  unfold rawSeconds
  have h0 : (0 : ℚ) ≤ (tp.milliseconds : ℚ) / 1000 := by positivity
  have h2 : (tp.milliseconds : ℚ) < 1000 := by exact_mod_cast hms
  have h3 : (tp.milliseconds : ℚ) / 1000 < 1 := by linarith
  rw [Int.floor_nat_add]
  have : ⌊(tp.milliseconds : ℚ) / 1000⌋ = 0 := by
    rw [Int.floor_eq_zero_iff]
    exact ⟨h0, h3⟩
  omega

lemma secondsForArcs_nonneg (cfg : ClockConfig) (tp : TimePoint) :
    0 ≤ secondsForArcs cfg tp := by
  unfold secondsForArcs
  split
  · exact rawSeconds_nonneg tp
  · positivity

lemma secondsForArcs_lt_60 (cfg : ClockConfig) (tp : TimePoint)
    (hs : tp.seconds < 60) (hms : tp.milliseconds < 1000) :
    secondsForArcs cfg tp < 60 := by
  unfold secondsForArcs
  split
  · exact rawSeconds_lt_60 tp hs hms
  · unfold discreteSeconds
    exact_mod_cast hs

lemma computeSegment_eq_some_index (cfg : ClockConfig) (tp : TimePoint)
    (i : ℕ) (a : SegmentArc) (h : computeSegment cfg tp i = some a) :
    a.index = i := by
  unfold computeSegment renderSegment at h
  split at h
  · exact absurd h (by simp)
  · split at h
    · exact absurd h (by simp)
    · injection h with h
      rw [← h]

lemma index_notMem_activeSegments (cfg : ClockConfig) (tp : TimePoint)
    (i : ℕ) (h : computeSegment cfg tp i = none) :
    i ∉ (activeSegments cfg tp).map SegmentArc.index := by
  unfold activeSegments
  intro hmem
  rw [List.mem_map] at hmem
  obtain ⟨a, ha, hai⟩ := hmem
  rw [List.mem_filterMap] at ha
  obtain ⟨j, _, hja⟩ := ha
  have hidx := computeSegment_eq_some_index cfg tp j a hja
  rw [hidx] at hai
  rw [hai, h] at hja
  exact absurd hja (by simp)

lemma segmentEndSeconds_eq (i : ℕ) : segmentEndSeconds i = (i : ℚ) * 5 + 5 := by
  unfold segmentEndSeconds
  ring

/-! ### C1: progressive build-up segment states -/

/-- C1: with `fullRingMode` off in the build-up phase, segment `i` with bucket
`[i*5, i*5+5)` at time `t` renders its full inset span when `t ≥ i*5+5`; while
`i*5 ≤ t < i*5+5` a fluent fill renders `renderEnd = baseStart +
span*(t-i*5)/5` (so at `t = i*5+2.5` exactly half of the inset span) and a
stepped fill renders the full span immediately; and when `t < i*5` the
segment is omitted from the output. -/
theorem buildUp_segment_states (cfg : ClockConfig) (tp : TimePoint)
    (t : ℚ) (i : ℕ) (hfr : cfg.fullRingMode = false) :
    ((i : ℚ) * 5 + 5 ≤ t →
      segmentSpan cfg true t i = some (baseStartAngle cfg i, maxEndAngle cfg i)) ∧
    ((i : ℚ) * 5 ≤ t → t < (i : ℚ) * 5 + 5 → cfg.fillSegmentsFluently = true →
      segmentSpan cfg true t i =
        some (baseStartAngle cfg i,
          baseStartAngle cfg i + fullSpan cfg i * ((t - (i : ℚ) * 5) / 5))) ∧
    (t = (i : ℚ) * 5 + 5 / 2 → cfg.fillSegmentsFluently = true →
      segmentSpan cfg true t i =
        some (baseStartAngle cfg i, baseStartAngle cfg i + fullSpan cfg i / 2)) ∧
    ((i : ℚ) * 5 ≤ t → t < (i : ℚ) * 5 + 5 → cfg.fillSegmentsFluently = false →
      segmentSpan cfg true t i = some (baseStartAngle cfg i, maxEndAngle cfg i)) ∧
    (t < (i : ℚ) * 5 →
      segmentSpan cfg true t i = none ∧
      renderSegment cfg tp true t i = none ∧
      (isBuildUpPhase cfg tp = true → secondsForArcs cfg tp = t →
        i ∉ (activeSegments cfg tp).map SegmentArc.index)) := by
  have hss : segmentStartSeconds i = (i : ℚ) * 5 := rfl
  have hes := segmentEndSeconds_eq i
  refine ⟨?_, ?_, ?_, ?_, ?_⟩
  · intro h
    unfold segmentSpan
    rw [hfr]
    rw [if_neg (by simp), if_pos rfl, if_pos (by rw [hes]; linarith)]
  · intro h1 h2 hfl
    unfold segmentSpan
    rw [hfr, hfl]
    rw [if_neg (by simp), if_pos rfl, if_neg (by rw [hes]; linarith),
      if_pos (by rw [hss]; linarith), if_pos rfl, hss]
  · intro ht hfl
    have h1 : (i : ℚ) * 5 ≤ t := by rw [ht]; linarith
    have h2 : t < (i : ℚ) * 5 + 5 := by rw [ht]; linarith
    unfold segmentSpan
    rw [hfr, hfl]
    rw [if_neg (by simp), if_pos rfl, if_neg (by rw [hes]; linarith),
      if_pos (by rw [hss]; linarith), if_pos rfl]
    rw [hss, ht]
    congr 2
    ring
  · intro h1 h2 hfl
    unfold segmentSpan
    rw [hfr, hfl]
    rw [if_neg (by simp), if_pos rfl, if_neg (by rw [hes]; linarith),
      if_pos (by rw [hss]; linarith), if_neg (by simp)]
  · intro h
    have hspan : segmentSpan cfg true t i = none := by
      unfold segmentSpan
      rw [hfr]
      rw [if_neg (by simp), if_pos rfl, if_neg (by rw [hes]; linarith),
        if_neg (by rw [hss]; linarith)]
    refine ⟨hspan, ?_, ?_⟩
    · unfold renderSegment
      rw [hspan]
    · intro hbu hsec
      apply index_notMem_activeSegments
      unfold computeSegment
      rw [hbu, hsec]
      unfold renderSegment
      rw [hspan]

/-- Witness for C1: fluent build-up at `t = 2.5` inside bucket 0 reaches the
midpoint angle 15° regardless of the gap. -/
theorem buildUp_segment_states_witness :
    segmentSpan { } true (5 / 2) 0 = some (gapAngle 24, 15) := by
  have h := (buildUp_segment_states { } ⟨12, 0, 2, 500⟩ (5 / 2) 0 rfl).2.2.1
    (by norm_num) rfl
  rw [h]
  norm_num [baseStartAngle, maxEndAngle, fullSpan]
  ring_nf

/-! ### C2: progressive build-down segment states -/

/-- C2: with `fullRingMode` off in the build-down phase (alternating mode, odd
minute), segment `i` is omitted from the output once `t ≥ i*5+5`; while
`i*5 ≤ t < i*5+5` the `renderEnd` stays at the bucket's full inset end and a
fluent fill erases from the left with `renderStart = baseStart +
span*(t-i*5)/5` while a stepped fill keeps the full span until `t` crosses
the bucket end; and when `t < i*5` the segment renders its full inset span. -/
theorem buildDown_segment_states (cfg : ClockConfig) (tp : TimePoint)
    (t : ℚ) (i : ℕ) (hfr : cfg.fullRingMode = false) :
    ((i : ℚ) * 5 + 5 ≤ t →
      segmentSpan cfg false t i = none ∧
      renderSegment cfg tp false t i = none ∧
      (isBuildUpPhase cfg tp = false → secondsForArcs cfg tp = t →
        i ∉ (activeSegments cfg tp).map SegmentArc.index)) ∧
    ((i : ℚ) * 5 ≤ t → t < (i : ℚ) * 5 + 5 → cfg.fillSegmentsFluently = true →
      segmentSpan cfg false t i =
        some (baseStartAngle cfg i + fullSpan cfg i * ((t - (i : ℚ) * 5) / 5),
          maxEndAngle cfg i)) ∧
    ((i : ℚ) * 5 ≤ t → t < (i : ℚ) * 5 + 5 → cfg.fillSegmentsFluently = false →
      segmentSpan cfg false t i = some (baseStartAngle cfg i, maxEndAngle cfg i)) ∧
    (t < (i : ℚ) * 5 →
      segmentSpan cfg false t i = some (baseStartAngle cfg i, maxEndAngle cfg i)) := by
  have hss : segmentStartSeconds i = (i : ℚ) * 5 := rfl
  have hes := segmentEndSeconds_eq i
  refine ⟨?_, ?_, ?_, ?_⟩
  · intro h
    have hspan : segmentSpan cfg false t i = none := by
      unfold segmentSpan
      rw [hfr]
      rw [if_neg (by simp), if_neg (by simp), if_pos (by rw [hes]; linarith)]
    refine ⟨hspan, ?_, ?_⟩
    · unfold renderSegment
      rw [hspan]
    · intro hbd hsec
      apply index_notMem_activeSegments
      unfold computeSegment
      rw [hbd, hsec]
      unfold renderSegment
      rw [hspan]
  · intro h1 h2 hfl
    unfold segmentSpan
    rw [hfr, hfl]
    rw [if_neg (by simp), if_neg (by simp), if_neg (by rw [hes]; linarith),
      if_pos (by rw [hss]; linarith), if_pos rfl, hss]
  · intro h1 h2 hfl
    unfold segmentSpan
    rw [hfr, hfl]
    rw [if_neg (by simp), if_neg (by simp), if_neg (by rw [hes]; linarith),
      if_pos (by rw [hss]; linarith), if_neg (by simp)]
  · intro h
    unfold segmentSpan
    rw [hfr]
    rw [if_neg (by simp), if_neg (by simp), if_neg (by rw [hes]; linarith),
      if_neg (by rw [hss]; linarith)]

/-- Witness for C2: fluent build-down at `t = 2.5` inside bucket 0 has been
erased up to the midpoint angle 15° and still ends at the full inset end. -/
theorem buildDown_segment_states_witness :
    segmentSpan { } false (5 / 2) 0 = some (15, 30 - gapAngle 24) := by
  have h := (buildDown_segment_states { } ⟨12, 1, 2, 500⟩ (5 / 2) 0 rfl).2.1
    (by norm_num) (by norm_num) rfl
  rw [h]
  norm_num [baseStartAngle, maxEndAngle, fullSpan]
  ring_nf

/-! ### C3: hand angles -/

/-- C3: for every time point (with milliseconds in range) and configuration,
`minuteAngle = minutes*6 + rawSeconds*0.1` (independent of the motion mode),
`hourAngle = (hours mod 12)*30 + minutes*0.5`, the displayed second angle is
`rawSeconds*6` when smooth and `floor(rawSeconds)*6` when stepped, and
`secondsForSegments` is likewise `rawSeconds` when smooth and
`floor(rawSeconds)` when stepped. -/
theorem hand_angle_formulas (cfg : ClockConfig) (tp : TimePoint)
    (hms : tp.milliseconds < 1000) :
    minuteAngle tp = (tp.minutes : ℚ) * 6 + rawSeconds tp * (1 / 10) ∧
    hourAngle tp = ((tp.hours % 12 : ℕ) : ℚ) * 30 + (tp.minutes : ℚ) * (1 / 2) ∧
    displaySecondAngle cfg tp =
      (if cfg.isSmooth then rawSeconds tp * 6 else (⌊rawSeconds tp⌋ : ℚ) * 6) ∧
    secondsForArcs cfg tp =
      (if cfg.isSmooth then rawSeconds tp else (⌊rawSeconds tp⌋ : ℚ)) := by
  refine ⟨rfl, rfl, ?_, ?_⟩
  · unfold displaySecondAngle discreteSeconds
    rw [floor_rawSeconds tp hms]
    norm_num
  · unfold secondsForArcs discreteSeconds
    rw [floor_rawSeconds tp hms]
    norm_num

/-- Witness for C3 at `12:34:56.789` with stepped motion. -/
theorem hand_angle_formulas_witness :
    minuteAngle ⟨12, 34, 56, 789⟩ =
      (34 : ℚ) * 6 + rawSeconds ⟨12, 34, 56, 789⟩ * (1 / 10) ∧
    hourAngle ⟨12, 34, 56, 789⟩ = (0 : ℚ) * 30 + (34 : ℚ) * (1 / 2) ∧
    displaySecondAngle { } ⟨12, 34, 56, 789⟩ =
      (if ({ } : ClockConfig).isSmooth then rawSeconds ⟨12, 34, 56, 789⟩ * 6
       else (⌊rawSeconds ⟨12, 34, 56, 789⟩⌋ : ℚ) * 6) ∧
    secondsForArcs { } ⟨12, 34, 56, 789⟩ =
      (if ({ } : ClockConfig).isSmooth then rawSeconds ⟨12, 34, 56, 789⟩
       else (⌊rawSeconds ⟨12, 34, 56, 789⟩⌋ : ℚ)) :=
  hand_angle_formulas { } ⟨12, 34, 56, 789⟩ (by decide)

/-! ### C5: uniform-color bucket index -/

/-- C5: for every time point with `rawSeconds` in `[0, 60)`, the uniform-color
bucket index is `min(floor(rawSeconds/5), 11)`, lies in `0..11`, its 5-second
bucket contains `rawSeconds` (so the 12 buckets cover `[0,60)` contiguously,
every value receiving a bucket color from the palette), and the boundary
values `rawSeconds = 0` and `rawSeconds = 59.999` map to indices 0 and 11. -/
theorem uniform_bucket_index (tp : TimePoint)
    (hs : tp.seconds < 60) (hms : tp.milliseconds < 1000) :
    currentSegmentIndex tp = min ⌊rawSeconds tp / 5⌋ 11 ∧
    0 ≤ currentSegmentIndex tp ∧
    currentSegmentIndex tp < 12 ∧
    5 * ((currentSegmentIndex tp : ℤ) : ℚ) ≤ rawSeconds tp ∧
    rawSeconds tp < 5 * (((currentSegmentIndex tp : ℤ) : ℚ) + 1) ∧
    currentUniformColor tp ∈ UNIFORM_COLORS ∧
    (rawSeconds tp = 0 → currentSegmentIndex tp = 0) ∧
    (rawSeconds tp = 59999 / 1000 → currentSegmentIndex tp = 11) := by
  have h0 : 0 ≤ rawSeconds tp := rawSeconds_nonneg tp
  have h60 : rawSeconds tp < 60 := rawSeconds_lt_60 tp hs hms
  have hdiv0 : 0 ≤ rawSeconds tp / 5 := by positivity
  have hdiv12 : rawSeconds tp / 5 < 12 := by linarith
  have hfl0 : 0 ≤ ⌊rawSeconds tp / 5⌋ := Int.floor_nonneg.mpr hdiv0
  have hfl12 : ⌊rawSeconds tp / 5⌋ < 12 := by
    have := Int.floor_le_floor (le_of_lt hdiv12)
    have h12 : ⌊(12 : ℚ)⌋ = 12 := by norm_num
    have hlt : ⌊rawSeconds tp / 5⌋ ≠ 12 := by
      intro hc
      have := Int.floor_le (rawSeconds tp / 5)
      rw [hc] at this
      push_cast at this
      linarith
    omega
  have hmin : min ⌊rawSeconds tp / 5⌋ 11 = ⌊rawSeconds tp / 5⌋ := by omega
  have hidx : currentSegmentIndex tp = ⌊rawSeconds tp / 5⌋ := by
    unfold currentSegmentIndex
    exact hmin
  refine ⟨rfl, ?_, ?_, ?_, ?_, ?_, ?_, ?_⟩
  · rw [hidx]; exact hfl0
  · rw [hidx]; exact hfl12
  · rw [hidx]
    have := Int.floor_le (rawSeconds tp / 5)
    linarith
  · rw [hidx]
    have := Int.lt_floor_add_one (rawSeconds tp / 5)
    linarith
  · unfold currentUniformColor
    have hn : (currentSegmentIndex tp).toNat < 12 := by
      rw [hidx]; omega
    have : ∀ n : ℕ, n < 12 → UNIFORM_COLORS.getD n "" ∈ UNIFORM_COLORS := by decide
    exact this _ hn
  · intro hz
    unfold currentSegmentIndex
    rw [hz]
    norm_num
  · intro hb
    unfold currentSegmentIndex
    rw [hb]
    norm_num

/-- Witness for C5 at the upper boundary `12:00:59.999` (index 11) and lower
boundary through the theorem's final conjuncts. -/
theorem uniform_bucket_index_witness :
    currentSegmentIndex ⟨12, 0, 59, 999⟩ = 11 ∧
    currentSegmentIndex ⟨12, 0, 0, 0⟩ = 0 :=
  ⟨(uniform_bucket_index ⟨12, 0, 59, 999⟩ (by decide) (by decide)).2.2.2.2.2.2.2
    (by norm_num [rawSeconds]),
   (uniform_bucket_index ⟨12, 0, 0, 0⟩ (by decide) (by decide)).2.2.2.2.2.2.1
    (by norm_num [rawSeconds])⟩

/-! ### C6: build-up and build-down are mirrored -/

/-- C6: with fluent fill and `fullRingMode` off, for `t` inside bucket `i` the
build-up phase fills `[baseStart, baseStart + span*progress]` and the
build-down phase keeps `[baseStart + span*progress, maxEnd]`, so the fraction
filled in build-up equals the fraction erased in build-down and the remaining
build-down fraction is `1 - progress`, where `progress = (t - i*5)/5`. -/
theorem alternating_mirror (cfg : ClockConfig) (t : ℚ) (i : ℕ)
    (hfr : cfg.fullRingMode = false) (hfl : cfg.fillSegmentsFluently = true)
    (h1 : (i : ℚ) * 5 ≤ t) (h2 : t < (i : ℚ) * 5 + 5) :
    segmentSpan cfg true t i =
      some (baseStartAngle cfg i,
        baseStartAngle cfg i + fullSpan cfg i * ((t - (i : ℚ) * 5) / 5)) ∧
    segmentSpan cfg false t i =
      some (baseStartAngle cfg i + fullSpan cfg i * ((t - (i : ℚ) * 5) / 5),
        maxEndAngle cfg i) ∧
    (fullSpan cfg i ≠ 0 →
      ((baseStartAngle cfg i + fullSpan cfg i * ((t - (i : ℚ) * 5) / 5)) -
          baseStartAngle cfg i) / fullSpan cfg i = (t - (i : ℚ) * 5) / 5 ∧
      (maxEndAngle cfg i -
          (baseStartAngle cfg i + fullSpan cfg i * ((t - (i : ℚ) * 5) / 5))) /
          fullSpan cfg i = 1 - (t - (i : ℚ) * 5) / 5) := by
  have hss : segmentStartSeconds i = (i : ℚ) * 5 := rfl
  have hes := segmentEndSeconds_eq i
  refine ⟨?_, ?_, ?_⟩
  · unfold segmentSpan
    rw [hfr, hfl]
    rw [if_neg (by simp), if_pos rfl, if_neg (by rw [hes]; linarith),
      if_pos (by rw [hss]; linarith), if_pos rfl, hss]
  · unfold segmentSpan
    rw [hfr, hfl]
    rw [if_neg (by simp), if_neg (by simp), if_neg (by rw [hes]; linarith),
      if_pos (by rw [hss]; linarith), if_pos rfl, hss]
  · intro hfs
    constructor
    · field_simp
      ring
    · have hmax : maxEndAngle cfg i = baseStartAngle cfg i + fullSpan cfg i := by
        unfold fullSpan
        ring
      rw [hmax]
      field_simp
      ring

/-- Witness for C6 at `t = 3` in bucket 0 of the default configuration. -/
theorem alternating_mirror_witness :
    segmentSpan { } true 3 0 =
      some (baseStartAngle { } 0,
        baseStartAngle { } 0 + fullSpan { } 0 * ((3 - ((0 : ℕ) : ℚ) * 5) / 5)) ∧
    segmentSpan { } false 3 0 =
      some (baseStartAngle { } 0 + fullSpan { } 0 * ((3 - ((0 : ℕ) : ℚ) * 5) / 5),
        maxEndAngle { } 0) :=
  ⟨(alternating_mirror { } 3 0 rfl rfl (by norm_num) (by norm_num)).1,
   (alternating_mirror { } 3 0 rfl rfl (by norm_num) (by norm_num)).2.1⟩

/-! ### C7: stepped fill renders only empty or full segments -/

lemma segmentSpan_stepped (cfg : ClockConfig) (buildUp : Bool) (t : ℚ) (i : ℕ)
    (hfr : cfg.fullRingMode = false) (hfl : cfg.fillSegmentsFluently = false) :
    segmentSpan cfg buildUp t i = none ∨
    segmentSpan cfg buildUp t i = some (baseStartAngle cfg i, maxEndAngle cfg i) := by
  unfold segmentSpan
  rw [hfr, hfl]
  split_ifs <;> simp

/-- C7: with stepped (non-fluent) fill and `fullRingMode` off, every segment is
either absent from the output or rendered at exactly its full inset span
`[i*30+gap, (i+1)*30-gap]`; no partial span is ever produced. -/
theorem stepped_fill_two_states (cfg : ClockConfig) (tp : TimePoint) (i : ℕ)
    (hfr : cfg.fullRingMode = false) (hfl : cfg.fillSegmentsFluently = false) :
    computeSegment cfg tp i = none ∨
    computeSegment cfg tp i =
      some ⟨i, (i : ℚ) * 30 + gapAngle cfg.markerWidth,
        ((i : ℚ) + 1) * 30 - gapAngle cfg.markerWidth, segColor cfg tp i⟩ := by
  rcases segmentSpan_stepped cfg (isBuildUpPhase cfg tp) (secondsForArcs cfg tp) i
      hfr hfl with h | h
  · left
    unfold computeSegment renderSegment
    rw [h]
  · unfold computeSegment renderSegment
    rw [h]
    by_cases hc : maxEndAngle cfg i ≤ baseStartAngle cfg i
    · left
      simp [hc]
    · right
      simp only [if_neg hc]
      rfl

/-- Witness for C7: the stepped default configuration at `12:00:02.000`. -/
theorem stepped_fill_two_states_witness :
    computeSegment { fillSegmentsFluently := false } ⟨12, 0, 2, 0⟩ 0 = none ∨
    computeSegment { fillSegmentsFluently := false } ⟨12, 0, 2, 0⟩ 0 =
      some ⟨0, ((0 : ℕ) : ℚ) * 30 +
          gapAngle ({ fillSegmentsFluently := false } : ClockConfig).markerWidth,
        (((0 : ℕ) : ℚ) + 1) * 30 -
          gapAngle ({ fillSegmentsFluently := false } : ClockConfig).markerWidth,
        segColor { fillSegmentsFluently := false } ⟨12, 0, 2, 0⟩ 0⟩ :=
  stepped_fill_two_states { fillSegmentsFluently := false } ⟨12, 0, 2, 0⟩ 0 rfl rfl

/-! ### C10: background track -/

/-- C10: when `showBackgroundSegments` is on, exactly 12 background track arcs
are emitted, the `k`-th at the full inset span `[k*30+gap, (k+1)*30-gap]` with
the fixed color `#333333`, and the result is independent of the time point and
of every configuration field other than `showBackgroundSegments` and
`markerWidth` (in particular of the build phase, fill mode and full-ring
mode). -/
theorem background_track_constant (cfg : ClockConfig) (tp : TimePoint)
    (hbg : cfg.showBackgroundSegments = true) :
    (backgroundArcs cfg tp).length = 12 ∧
    (∀ k : ℕ, k < 12 → (backgroundArcs cfg tp).getD k ⟨0, 0, 0, ""⟩ =
      ⟨k, (k : ℚ) * 30 + gapAngle cfg.markerWidth,
        ((k : ℚ) + 1) * 30 - gapAngle cfg.markerWidth, "#333333"⟩) ∧
    (∀ tp' : TimePoint, backgroundArcs cfg tp' = backgroundArcs cfg tp) ∧
    (∀ cfg' : ClockConfig,
      cfg'.showBackgroundSegments = cfg.showBackgroundSegments →
      cfg'.markerWidth = cfg.markerWidth →
      backgroundArcs cfg' tp = backgroundArcs cfg tp) := by
  refine ⟨?_, ?_, ?_, ?_⟩
  · unfold backgroundArcs
    rw [hbg]
    simp
  · intro k hk
    unfold backgroundArcs
    rw [hbg]
    simp only [if_pos rfl]
    rw [if_pos trivial, List.getD_eq_getElem?_getD, List.getElem?_map,
      List.getElem?_range hk]
    rfl
  · intro tp'
    rfl
  · intro cfg' h1 h2
    unfold backgroundArcs
    rw [h1, hbg]
    unfold baseStartAngle maxEndAngle
    rw [h2]

/-- Witness for C10: the default configuration with the background track on. -/
theorem background_track_constant_witness :
    (backgroundArcs { showBackgroundSegments := true } ⟨12, 0, 0, 0⟩).length = 12 := by
  have h := background_track_constant { showBackgroundSegments := true }
    ⟨12, 0, 0, 0⟩ rfl
  exact h.1

/-! ### Phase lemmas shared by the remaining claims -/

lemma segmentSpan_buildUp_full (cfg : ClockConfig) (t : ℚ) (i : ℕ)
    (hfr : cfg.fullRingMode = false) (h : (i : ℚ) * 5 + 5 ≤ t) :
    segmentSpan cfg true t i = some (baseStartAngle cfg i, maxEndAngle cfg i) := by
  unfold segmentSpan
  rw [hfr]
  rw [if_neg (by simp), if_pos rfl, if_pos (by rw [segmentEndSeconds_eq]; linarith)]

lemma segmentSpan_buildUp_empty (cfg : ClockConfig) (t : ℚ) (i : ℕ)
    (hfr : cfg.fullRingMode = false) (h : t < (i : ℚ) * 5) :
    segmentSpan cfg true t i = none := by
  unfold segmentSpan
  rw [hfr]
  rw [if_neg (by simp), if_pos rfl, if_neg (by rw [segmentEndSeconds_eq]; linarith),
    if_neg (by unfold segmentStartSeconds; linarith)]

lemma segmentSpan_buildDown_empty (cfg : ClockConfig) (t : ℚ) (i : ℕ)
    (hfr : cfg.fullRingMode = false) (h : (i : ℚ) * 5 + 5 ≤ t) :
    segmentSpan cfg false t i = none := by
  unfold segmentSpan
  rw [hfr]
  rw [if_neg (by simp), if_neg (by simp),
    if_pos (by rw [segmentEndSeconds_eq]; linarith)]

lemma segmentSpan_buildDown_full (cfg : ClockConfig) (t : ℚ) (i : ℕ)
    (hfr : cfg.fullRingMode = false) (h : t < (i : ℚ) * 5) :
    segmentSpan cfg false t i = some (baseStartAngle cfg i, maxEndAngle cfg i) := by
  unfold segmentSpan
  rw [hfr]
  rw [if_neg (by simp), if_neg (by simp),
    if_neg (by rw [segmentEndSeconds_eq]; linarith),
    if_neg (by unfold segmentStartSeconds; linarith)]

/-! ### C8: exactly one segment in progress -/

/-- C8: in progressive mode, at every `t` of the minute not lying on a
5-second boundary there is exactly one in-progress segment (its bucket
contains `t`); every lower-indexed segment is fully rendered in build-up and
fully erased in build-down, and every higher-indexed segment is empty in
build-up and full in build-down. -/
theorem one_segment_in_progress (cfg : ClockConfig) (tp : TimePoint)
    (hfr : cfg.fullRingMode = false)
    (hs : tp.seconds < 60) (hms : tp.milliseconds < 1000)
    (hnb : ∀ k : ℕ, secondsForArcs cfg tp ≠ (k : ℚ) * 5) :
    ∃ i : ℕ, i < 12 ∧
      (i : ℚ) * 5 ≤ secondsForArcs cfg tp ∧
      secondsForArcs cfg tp < (i : ℚ) * 5 + 5 ∧
      (∀ j : ℕ, (j : ℚ) * 5 ≤ secondsForArcs cfg tp →
        secondsForArcs cfg tp < (j : ℚ) * 5 + 5 → j = i) ∧
      (∀ j : ℕ, j < i →
        segmentSpan cfg true (secondsForArcs cfg tp) j =
          some (baseStartAngle cfg j, maxEndAngle cfg j) ∧
        segmentSpan cfg false (secondsForArcs cfg tp) j = none) ∧
      (∀ j : ℕ, i < j →
        segmentSpan cfg true (secondsForArcs cfg tp) j = none ∧
        segmentSpan cfg false (secondsForArcs cfg tp) j =
          some (baseStartAngle cfg j, maxEndAngle cfg j)) := by
  have h0 : 0 ≤ secondsForArcs cfg tp := secondsForArcs_nonneg cfg tp
  have h60 : secondsForArcs cfg tp < 60 := secondsForArcs_lt_60 cfg tp hs hms
  set t := secondsForArcs cfg tp with ht
  have hq0 : (0 : ℚ) ≤ t / 5 := by positivity
  have hfl0 : 0 ≤ ⌊t / 5⌋ := Int.floor_nonneg.mpr hq0
  have hlb : ((⌊t / 5⌋ : ℤ) : ℚ) ≤ t / 5 := Int.floor_le _
  have hub : t / 5 < (⌊t / 5⌋ : ℚ) + 1 := Int.lt_floor_add_one _
  have hfl12 : ⌊t / 5⌋ < 12 := by
    apply Int.floor_lt.mpr
    push_cast
    linarith
  have hn : ((⌊t / 5⌋.toNat : ℕ) : ℚ) = ((⌊t / 5⌋ : ℤ) : ℚ) := by
    exact_mod_cast Int.toNat_of_nonneg hfl0
  have hle5 : ((⌊t / 5⌋.toNat : ℕ) : ℚ) * 5 ≤ t := by
    rw [hn]
    linarith
  have hlt5 : t < ((⌊t / 5⌋.toNat : ℕ) : ℚ) * 5 + 5 := by
    rw [hn]
    linarith
  refine ⟨⌊t / 5⌋.toNat, by omega, hle5, hlt5, ?_, ?_, ?_⟩
  · intro j hj1 hj2
    have hj : ⌊t / 5⌋ = (j : ℤ) := by
      rw [Int.floor_eq_iff]
      constructor
      · push_cast
        linarith
      · push_cast
        linarith
    omega
  · intro j hji
    have hj1 : (j : ℚ) + 1 ≤ ((⌊t / 5⌋.toNat : ℕ) : ℚ) := by
      exact_mod_cast hji
    have hfull : (j : ℚ) * 5 + 5 ≤ t := by linarith
    exact ⟨segmentSpan_buildUp_full cfg t j hfr hfull,
      segmentSpan_buildDown_empty cfg t j hfr hfull⟩
  · intro j hij
    have hj1 : ((⌊t / 5⌋.toNat : ℕ) : ℚ) + 1 ≤ (j : ℚ) := by
      exact_mod_cast hij
    have hlt : t < (j : ℚ) * 5 := by linarith
    exact ⟨segmentSpan_buildUp_empty cfg t j hfr hlt,
      segmentSpan_buildDown_full cfg t j hfr hlt⟩

/-- Witness for C8 at `t = 7` (bucket 1): segment 0 is full and segment 2 is
empty in build-up. -/
theorem one_segment_in_progress_witness :
    segmentSpan { } true (secondsForArcs { } ⟨12, 0, 7, 0⟩) 0 =
      some (baseStartAngle { } 0, maxEndAngle { } 0) ∧
    segmentSpan { } true (secondsForArcs { } ⟨12, 0, 7, 0⟩) 2 = none := by
  have h7 : secondsForArcs { } ⟨12, 0, 7, 0⟩ = 7 := by
    norm_num [secondsForArcs, discreteSeconds]
  have hnb : ∀ k : ℕ, secondsForArcs { } ⟨12, 0, 7, 0⟩ ≠ (k : ℚ) * 5 := by
    intro k h
    rw [h7] at h
    have h2 : (7 : ℚ) = ((k * 5 : ℕ) : ℚ) := by push_cast; linarith
    have h3 : (7 : ℕ) = k * 5 := by exact_mod_cast h2
    omega
  obtain ⟨i, h12, hl, hr, huniq, hlow, hhigh⟩ :=
    one_segment_in_progress { } ⟨12, 0, 7, 0⟩ rfl (by decide) (by decide) hnb
  have hi : 1 = i := by
    apply huniq 1
    · rw [h7]; norm_num
    · rw [h7]; norm_num
  exact ⟨(hlow 0 (by omega)).1, (hhigh 2 (by omega)).1⟩

/-! ### C9: totality and the drop rule -/

lemma computeSegment_some_lt (cfg : ClockConfig) (tp : TimePoint) (i : ℕ)
    (a : SegmentArc) (h : computeSegment cfg tp i = some a) :
    a.renderStart < a.renderEnd := by
  unfold computeSegment renderSegment at h
  split at h
  · exact absurd h (by simp)
  · split at h
    · exact absurd h (by simp)
    · injection h with h
      rw [← h]
      simp only []
      linarith [not_le.mp (by assumption : ¬ _)]

/-- C9: the face computation is total by construction and never emits a
degenerate arc: `createArc` returns the empty result whenever
`endAngle ≤ startAngle`, and every segment whose computed span is empty or
inverted is dropped, so each emitted segment satisfies
`renderStart < renderEnd`. -/
theorem face_safety :
    (∀ s e r : ℚ, e ≤ s → createArc s e r = none) ∧
    (∀ (cfg : ClockConfig) (tp : TimePoint) (i : ℕ) (a : SegmentArc),
      computeSegment cfg tp i = some a → a.renderStart < a.renderEnd) ∧
    (∀ (cfg : ClockConfig) (tp : TimePoint) (a : SegmentArc),
      a ∈ (computeFace cfg tp).segments → a.renderStart < a.renderEnd) := by
  refine ⟨?_, ?_, ?_⟩
  · intro s e r h
    unfold createArc
    rw [if_pos h]
  · intro cfg tp i a h
    exact computeSegment_some_lt cfg tp i a h
  · intro cfg tp a ha
    have ha' : a ∈ (List.range 12).filterMap (computeSegment cfg tp) := ha
    obtain ⟨i, _, hi⟩ := List.mem_filterMap.mp ha'
    exact computeSegment_some_lt cfg tp i a hi

/-! ### Full-ring evaluation lemmas (shared) -/

lemma computeSegment_fullRing_eq (cfg : ClockConfig) (tp : TimePoint) (i : ℕ)
    (hfr : cfg.fullRingMode = true) :
    computeSegment cfg tp i =
      if maxEndAngle cfg i ≤ baseStartAngle cfg i then none
      else some ⟨i, baseStartAngle cfg i, maxEndAngle cfg i, segColor cfg tp i⟩ := by
  unfold computeSegment renderSegment segmentSpan
  rw [hfr]
  rw [if_pos rfl]

lemma computeSegment_fullRing (cfg : ClockConfig) (tp : TimePoint) (i : ℕ)
    (hfr : cfg.fullRingMode = true) (hgap : gapAngle cfg.markerWidth < 15) :
    computeSegment cfg tp i =
      some ⟨i, baseStartAngle cfg i, maxEndAngle cfg i, segColor cfg tp i⟩ := by
  have hlt : baseStartAngle cfg i < maxEndAngle cfg i := by
    unfold baseStartAngle maxEndAngle
    linarith
  rw [computeSegment_fullRing_eq cfg tp i hfr, if_neg (not_le.mpr hlt)]

/-- Witness for C9: `createArc` on an inverted span is empty, and a concrete
emitted full-ring segment (even with `markerWidth = 0`) has a positive span. -/
theorem face_safety_witness :
    createArc 10 5 180 = none ∧
    ((⟨0, 3 / 2, 57 / 2, "#FFFFFF"⟩ : SegmentArc).renderStart <
      (⟨0, 3 / 2, 57 / 2, "#FFFFFF"⟩ : SegmentArc).renderEnd) := by
  have hcomp : computeSegment
      { markerWidth := 0, fullRingMode := true, forceWhiteSegments := true }
      ⟨12, 0, 0, 0⟩ 0 = some ⟨0, 3 / 2, 57 / 2, "#FFFFFF"⟩ := by
    refine (computeSegment_fullRing _ ⟨12, 0, 0, 0⟩ 0 rfl ?_).trans ?_
    · norm_num [gapAngle, markerCoverageDegrees, mathPI, arcRadius]
    · simp only [Option.some.injEq, SegmentArc.mk.injEq]
      norm_num [baseStartAngle, maxEndAngle, gapAngle, markerCoverageDegrees,
        mathPI, arcRadius, segColor]
  exact ⟨face_safety.1 10 5 180 (by norm_num),
    face_safety.2.1 { markerWidth := 0, fullRingMode := true, forceWhiteSegments := true }
      ⟨12, 0, 0, 0⟩ 0 ⟨0, 3 / 2, 57 / 2, "#FFFFFF"⟩ hcomp⟩

lemma activeSegments_fullRing (cfg : ClockConfig) (tp : TimePoint)
    (hfr : cfg.fullRingMode = true) (hgap : gapAngle cfg.markerWidth < 15) :
    activeSegments cfg tp = (List.range 12).map
      (fun i => ⟨i, baseStartAngle cfg i, maxEndAngle cfg i, segColor cfg tp i⟩) := by
  unfold activeSegments
  have hall : ∀ i ∈ List.range 12, computeSegment cfg tp i =
      (some ∘ fun i =>
        (⟨i, baseStartAngle cfg i, maxEndAngle cfg i, segColor cfg tp i⟩ : SegmentArc)) i :=
    fun i _ => computeSegment_fullRing cfg tp i hfr hgap
  rw [List.filterMap_congr hall, List.filterMap_eq_map]

/-! ### C4: full-ring invariance -/

/-- Counterexample to C4 as stated: with `fullRingMode` and `useUniformColor`
both on (other fields fixed at their defaults), the face output still depends
on the time — at `12:00:00.000` every segment is `#FED30A` while at
`12:00:07.000` every segment is `#90E675`. -/
theorem fullRing_time_dependence_counterexample :
    activeSegments { fullRingMode := true, useUniformColor := true } ⟨12, 0, 0, 0⟩ ≠
      activeSegments { fullRingMode := true, useUniformColor := true } ⟨12, 0, 7, 0⟩ := by
  have hgap : gapAngle
      ({ fullRingMode := true, useUniformColor := true } : ClockConfig).markerWidth < 15 := by
    norm_num [gapAngle, markerCoverageDegrees, mathPI, arcRadius]
  intro heq
  rw [activeSegments_fullRing _ ⟨12, 0, 0, 0⟩ rfl hgap,
    activeSegments_fullRing _ ⟨12, 0, 7, 0⟩ rfl hgap,
    show List.range 12 = 0 :: [1, 2, 3, 4, 5, 6, 7, 8, 9, 10, 11] from rfl] at heq
  simp only [List.map_cons] at heq
  injection heq with hhd _
  injection hhd with _ _ _ hcol
  have hc1 : segColor { fullRingMode := true, useUniformColor := true }
      ⟨12, 0, 0, 0⟩ 0 = "#FED30A" := by
    norm_num [segColor, currentUniformColor, currentSegmentIndex, rawSeconds,
      UNIFORM_COLORS]
  have hc2 : segColor { fullRingMode := true, useUniformColor := true }
      ⟨12, 0, 7, 0⟩ 0 = "#90E675" := by
    norm_num [segColor, currentUniformColor, currentSegmentIndex, rawSeconds,
      UNIFORM_COLORS]
  rw [hc1, hc2] at hcol
  exact absurd hcol (by decide)

/-- C4 (amended): with `fullRingMode` on, the rendered geometry — index and
render span of every emitted segment — is the same for every time point, the
output does not depend on `alternatingMode` or `fillSegmentsFluently`, and the
whole output (colors included) is time-independent when `useUniformColor` is
off; when the gap angle is below 15° all 12 segments are present at their
full inset span. (As stated the claim fails only because the uniform bucket
color tracks `rawSeconds` even in full-ring mode.) -/
theorem fullRing_output_invariance (cfg : ClockConfig) (tp tp' : TimePoint)
    (hfr : cfg.fullRingMode = true) :
    ((activeSegments cfg tp).map (fun a => (a.index, a.renderStart, a.renderEnd)) =
      (activeSegments cfg tp').map (fun a => (a.index, a.renderStart, a.renderEnd))) ∧
    (∀ b₁ b₂ : Bool,
      activeSegments { cfg with alternatingMode := b₁, fillSegmentsFluently := b₂ } tp =
        activeSegments cfg tp) ∧
    (cfg.useUniformColor = false → activeSegments cfg tp = activeSegments cfg tp') ∧
    (gapAngle cfg.markerWidth < 15 →
      (activeSegments cfg tp).length = 12 ∧
      (∀ k : ℕ, k < 12 → (activeSegments cfg tp).getD k ⟨0, 0, 0, ""⟩ =
        ⟨k, baseStartAngle cfg k, maxEndAngle cfg k, segColor cfg tp k⟩)) := by
  refine ⟨?_, ?_, ?_, ?_⟩
  · have hmap : ∀ tpx : TimePoint,
        (activeSegments cfg tpx).map (fun a => (a.index, a.renderStart, a.renderEnd)) =
        (List.range 12).filterMap (fun i =>
          (computeSegment cfg tpx i).map (fun a => (a.index, a.renderStart, a.renderEnd))) := by
      intro tpx
      unfold activeSegments
      rw [List.map_filterMap]
    rw [hmap tp, hmap tp']
    apply List.filterMap_congr
    intro i _
    rw [computeSegment_fullRing_eq cfg tp i hfr, computeSegment_fullRing_eq cfg tp' i hfr]
    by_cases hc : maxEndAngle cfg i ≤ baseStartAngle cfg i
    · simp [hc]
    · simp [hc]
  · intro b₁ b₂
    unfold activeSegments
    apply List.filterMap_congr
    intro i _
    rw [computeSegment_fullRing_eq
        { cfg with alternatingMode := b₁, fillSegmentsFluently := b₂ } tp i hfr,
      computeSegment_fullRing_eq cfg tp i hfr]
    rfl
  · intro huc
    unfold activeSegments
    apply List.filterMap_congr
    intro i _
    rw [computeSegment_fullRing_eq cfg tp i hfr, computeSegment_fullRing_eq cfg tp' i hfr]
    have hcol : segColor cfg tp i = segColor cfg tp' i := by
      unfold segColor
      rw [huc]
      simp
    rw [hcol]
  · intro hgap
    rw [activeSegments_fullRing cfg tp hfr hgap]
    constructor
    · simp
    · intro k hk
      rw [List.getD_eq_getElem?_getD, List.getElem?_map, List.getElem?_range hk]
      rfl

/-- Witness for the amended C4: with rainbow colors the full-ring output is
identical at `12:00:00` and `12:00:30`, and all 12 segments are present. -/
theorem fullRing_output_invariance_witness :
    activeSegments { fullRingMode := true } ⟨12, 0, 0, 0⟩ =
      activeSegments { fullRingMode := true } ⟨12, 0, 30, 0⟩ ∧
    (activeSegments { fullRingMode := true } ⟨12, 0, 0, 0⟩).length = 12 :=
  ⟨(fullRing_output_invariance { fullRingMode := true } ⟨12, 0, 0, 0⟩
      ⟨12, 0, 30, 0⟩ rfl).2.2.1 rfl,
   ((fullRing_output_invariance { fullRingMode := true } ⟨12, 0, 0, 0⟩
      ⟨12, 0, 30, 0⟩ rfl).2.2.2
    (by norm_num [gapAngle, markerCoverageDegrees, mathPI, arcRadius])).1⟩

end RetroClock
